import Mathlib

/-!
Verification of the Cloudflare Worker URL shortener (`src/worker.js`).

The worker's `fetch` handler is embedded shallowly: the immutable URL
mapping (`URL_MAPPINGS`, a JS object built at deploy time) becomes an
association list in insertion order, the analytics sink
(`env.ANALYTICS.writeDataPoint`) becomes an injected function returning
`Except`, the timestamps (`new Date().toISOString()`) and `url.origin`
become explicit parameters, and the HTML/JSON bodies become a structured
`Body` type carrying exactly the data interpolated into them.
-/

namespace TinyUrl

/-- A response body, carrying the data the worker interpolates into the
corresponding HTML or JSON template. -/
inductive Body where
  /-- The root info page (`path === '/'`): origin, the full mapping,
  the count, and the build timestamp. -/
  | homePage (origin : String) (urls : List (String × String)) (count : Nat) (buildTime : String)
  /-- The `/api/urls` JSON body `{urls, count, buildTime}`. -/
  | jsonUrls (urls : List (String × String)) (count : Nat) (buildTime : String)
  /-- The `/health` JSON body `{status, urlCount, buildTime}`. -/
  | jsonHealth (status : String) (urlCount : Nat) (buildTime : String)
  /-- A plain-text body (the bare `'Not Found'` response). -/
  | plain (s : String)
  /-- The empty body of a `Response.redirect`. -/
  | empty
  /-- The 404 HTML page: the missed short code, the suggestion list
  (`availableUrls` before joining with `', '`), and the origin. -/
  | notFoundPage (shortCode : String) (suggestions : List String) (origin : String)
deriving DecidableEq, Repr

/-- An HTTP response: status, headers in order, body. -/
structure Response where
  status : Nat
  headers : List (String × String)
  body : Body
deriving DecidableEq, Repr

/-- `Response.redirect(targetUrl, status)`: a response with the given
status, a `Location` header pointing at the target, and an empty body. -/
def Response.redirect (targetUrl : String) (status : Nat) : Response :=
  { status := status, headers := [("Location", targetUrl)], body := .empty }

/-- Own-key lookup in the mapping: the value of the first (unique) pair
whose key matches, if any. -/
def lookup (m : List (String × String)) (k : String) : Option String :=
  (m.find? (fun p => p.1 = k)).map Prod.snd

/-- The values a JS property read on a plain object literal can
produce: an own property (a destination string of the mapping), a
member inherited from `Object.prototype` (a function, or the
`__proto__` object — non-string and truthy), or `undefined`. -/
inductive PropValue where
  | str (s : String)
  | proto
  | undefined
deriving DecidableEq, Repr

/-- The property names a plain object literal inherits from
`Object.prototype`; reading any of them on `URL_MAPPINGS` yields a
truthy non-string value. -/
def protoProps : List String :=
  ["constructor", "hasOwnProperty", "isPrototypeOf", "propertyIsEnumerable",
   "toLocaleString", "toString", "valueOf", "__proto__",
   "__defineGetter__", "__defineSetter__", "__lookupGetter__", "__lookupSetter__"]

/-- The JS property read `URL_MAPPINGS[shortCode]` (`worker.js` line
146): an own key yields its destination string (own properties shadow
the prototype); otherwise a property name of `Object.prototype` yields
the inherited member; otherwise `undefined`. -/
def getProp (m : List (String × String)) (k : String) : PropValue :=
  match lookup m k with
  | some v => .str v
  | none => if k ∈ protoProps then .proto else .undefined

/-- JS truthiness of `const targetUrl = URL_MAPPINGS[shortCode]`:
`undefined` and the empty string are falsy; inherited
`Object.prototype` members (functions, the `__proto__` object) are
truthy. -/
def truthy : PropValue → Bool
  | .str s => s ≠ ""
  | .proto => true
  | .undefined => false

/-- Row `i + 1` of the Levenshtein matrix of `worker.js` lines 160-178,
given row `i` as the function `f` (the inner `for (let j ...)` loop):
cell `(i + 1, 0)` is `i + 1`, and cell `(i + 1, j + 1)` is
`min(matrix[i][j+1] + 1, matrix[i+1][j] + 1, matrix[i][j] + cost)` with
`cost` equal to `0` iff `a[i] === b[j]` (the source's
`a[i - 1] === b[j - 1]` at one-based indices `i + 1`, `j + 1`). -/
def levMatAux (a b : List Char) (f : Nat → Nat) (i : Nat) : Nat → Nat
  | 0 => i + 1
  | j + 1 =>
    min (f (j + 1) + 1)
      (min (levMatAux a b f i j + 1)
        (f j + if a.get? i = b.get? j then 0 else 1))

/-- The Levenshtein matrix of `worker.js` lines 160-178 (the outer
`for (let i ...)` loop): row `0` is `matrix[0][j] = j`, and row `i + 1`
is built from row `i` by `levMatAux`. Cell `(i, j)` only depends on
cells of the same or the previous row with smaller or equal indices, so
the loops that fill the matrix compute exactly this recurrence; the
defining equations are restated (and kernel-checked by `rfl`) in
`levMat_zero`, `levMat_succ_zero` and `levMat_succ_succ` below. -/
def levMat (a b : List Char) : Nat → Nat → Nat
  | 0 => fun j => j
  | i + 1 => levMatAux a b (levMat a b i) i

/-- `matrix[0][j] = j` (`worker.js` line 164). -/
theorem levMat_zero (a b : List Char) (j : Nat) : levMat a b 0 j = j := rfl

/-- `matrix[i][0] = i` (`worker.js` line 163). -/
theorem levMat_succ_zero (a b : List Char) (i : Nat) :
    levMat a b (i + 1) 0 = i + 1 := rfl

/-- The inner-loop recurrence (`worker.js` lines 168-173): at one-based
cell `(i + 1, j + 1)`, `matrix[i+1][j+1] = min(matrix[i][j+1] + 1,
matrix[i+1][j] + 1, matrix[i][j] + cost)` with `cost = 0` iff the
characters `a[i]` and `b[j]` coincide. -/
theorem levMat_succ_succ (a b : List Char) (i j : Nat) :
    levMat a b (i + 1) (j + 1) =
      min (levMat a b i (j + 1) + 1)
        (min (levMat a b (i + 1) j + 1)
          (levMat a b i j + if a.get? i = b.get? j then 0 else 1)) := rfl

/-- `levenshtein(a, b)` of `worker.js`: the bottom-right matrix cell
`matrix[a.length][b.length]`. -/
def levenshtein (a b : String) : Nat :=
  levMat a.data b.data a.data.length b.data.length

/-- The suggestion computation of `worker.js` line 179:
`Object.keys(URL_MAPPINGS).filter(key => levenshtein(key, shortCode) <= 2).slice(0, 5)`
with `candidates` the mapping's keys in insertion order and `query` the
missed short code. -/
def suggest (query : String) (candidates : List String) : List String :=
  (candidates.filter (fun key => levenshtein key query ≤ 2)).take 5

/-- `path.substring(1)`: drop the first character. -/
def stripLeading (p : String) : String :=
  String.mk (p.data.drop 1)

/-- The hit branch of `worker.js` lines 148-157, entered when
`targetUrl` is truthy: invoke `env.ANALYTICS.writeDataPoint` with the
target and the constant `1`, then `Response.redirect(targetUrl, 301)`.
When `targetUrl` is a truthy member inherited from `Object.prototype`
rather than an own string value, both calls throw a `TypeError`
(`writeDataPoint` requires string blobs, `Response.redirect` a valid
URL string), so the handler aborts with that error. -/
def hitResponse (sink : String → Nat → Except String Unit) :
    PropValue → Except String Response
  | .str v =>
    match sink v 1 with
    | .ok _ => .ok (Response.redirect v 301)
    | .error e => .error e
  | _ => .error "TypeError"

/-- The worker's `fetch` handler (`worker.js` lines 9-235).

* `mappings` is `URL_MAPPINGS` as an insertion-ordered association list;
* `sink` is `env.ANALYTICS.writeDataPoint` (its argument tuple is the
  target URL blob and the constant double `1`); the call site has no
  `try`/`catch`, so a sink error propagates out of the handler;
* `now` is `new Date().toISOString()`;
* `origin` is `url.origin`;
* `path` is `url.pathname`. -/
def fetch (mappings : List (String × String))
    (sink : String → Nat → Except String Unit)
    (now origin path : String) : Except String Response :=
  if path = "/" then
    .ok { status := 200,
          headers := [("Content-Type", "text/html"),
                      ("Cache-Control", "public, max-age=3600")],
          body := .homePage origin mappings mappings.length now }
  else if path = "/api/urls" then
    .ok { status := 200,
          headers := [("Content-Type", "application/json"),
                      ("Access-Control-Allow-Origin", "*"),
                      ("Cache-Control", "public, max-age=3600")],
          body := .jsonUrls mappings mappings.length now }
  else if path = "/health" then
    .ok { status := 200,
          headers := [("Content-Type", "application/json")],
          body := .jsonHealth "ok" mappings.length now }
  else
    let shortCode := stripLeading path
    if shortCode = "" then
      .ok { status := 404, headers := [], body := .plain "Not Found" }
    else
      let targetUrl := getProp mappings shortCode
      if truthy targetUrl then
        hitResponse sink targetUrl
      else
        let availableUrls := suggest shortCode (mappings.map Prod.fst)
        .ok { status := 404,
              headers := [("Content-Type", "text/html"),
                          ("Cache-Control", "public, max-age=300")],
              body := .notFoundPage shortCode availableUrls origin }

/-! ## Edit-distance theory

To settle the claim that `levenshtein` computes the classic edit
distance, we characterise edit scripts by the inductive `Edits` and
relate the source's matrix to a front-to-back recursion `levRec`. -/

/-- Front-to-back recursion for the Levenshtein recurrence; proof-side
companion of the source's matrix (`levMat_eq_levRec` below). -/
def levRec : List Char → List Char → Nat
  | [], ys => ys.length
  | _ :: xs, [] => xs.length + 1
  | x :: xs, y :: ys =>
    min (levRec xs (y :: ys) + 1)
      (min (levRec (x :: xs) ys + 1)
        (levRec xs ys + if x = y then 0 else 1))
termination_by xs ys => (xs.length, ys.length)

/-- `Edits xs ys n` holds iff some edit script transforms `xs` into `ys`
using `n` cost-1 operations, reading both strings left to right:
`copy` keeps a character (cost 0), `subst` substitutes one character,
`insert` inserts one character of the target, `delete` deletes one
character of the source. -/
inductive Edits : List Char → List Char → Nat → Prop where
  | nil : Edits [] [] 0
  | copy (c : Char) {xs ys : List Char} {n : Nat} :
      Edits xs ys n → Edits (c :: xs) (c :: ys) n
  | subst (c d : Char) {xs ys : List Char} {n : Nat} :
      Edits xs ys n → Edits (c :: xs) (d :: ys) (n + 1)
  | insert (d : Char) {xs ys : List Char} {n : Nat} :
      Edits xs ys n → Edits xs (d :: ys) (n + 1)
  | delete (c : Char) {xs ys : List Char} {n : Nat} :
      Edits xs ys n → Edits (c :: xs) ys (n + 1)

theorem edits_nil_left (ys : List Char) : Edits [] ys ys.length := by
  induction ys with
  | nil => exact .nil
  | cons y ys ih => exact .insert y ih

theorem edits_nil_right (xs : List Char) : Edits xs [] xs.length := by
  induction xs with
  | nil => exact .nil
  | cons x xs ih => exact .delete x ih

theorem levRec_nil_left (ys : List Char) : levRec [] ys = ys.length := by
  simp [levRec]

theorem levRec_nil_right (xs : List Char) : levRec xs [] = xs.length := by
  cases xs <;> simp [levRec]

/-- `levRec` is achieved by an actual edit script. -/
theorem edits_levRec (xs : List Char) : ∀ ys, Edits xs ys (levRec xs ys) := by
  induction xs with
  | nil =>
    intro ys
    rw [levRec_nil_left]
    exact edits_nil_left ys
  | cons x xs ih =>
    intro ys
    induction ys with
    | nil =>
      rw [levRec_nil_right]
      exact .delete x (edits_nil_right xs)
    | cons y ys ihy =>
      rw [show levRec (x :: xs) (y :: ys) =
            min (levRec xs (y :: ys) + 1)
              (min (levRec (x :: xs) ys + 1)
                (levRec xs ys + if x = y then 0 else 1)) from by rw [levRec]]
      rcases min_choice (levRec xs (y :: ys) + 1)
          (min (levRec (x :: xs) ys + 1)
            (levRec xs ys + if x = y then 0 else 1)) with h | h
      · rw [h]
        exact .delete x (ih (y :: ys))
      · rw [h]
        rcases min_choice (levRec (x :: xs) ys + 1)
            (levRec xs ys + if x = y then 0 else 1) with h2 | h2
        · rw [h2]
          exact .insert y ihy
        · rw [h2]
          by_cases hxy : x = y
          · subst hxy
            simpa using Edits.copy x (ih ys)
          · rw [if_neg hxy]
            exact .subst x y (ih ys)

/-- `levRec` is a lower bound on the cost of every edit script. -/
theorem levRec_le_of_edits {xs ys : List Char} {n : Nat}
    (h : Edits xs ys n) : levRec xs ys ≤ n := by
  induction h with
  | nil => simp [levRec]
  | copy c _ ih =>
    rename_i xs ys n _
    calc levRec (c :: xs) (c :: ys)
        ≤ levRec xs ys + if c = c then 0 else 1 := by
          rw [levRec]; exact le_trans (min_le_right _ _) (min_le_right _ _)
      _ = levRec xs ys := by simp
      _ ≤ n := ih
  | subst c d _ ih =>
    rename_i xs ys n _
    calc levRec (c :: xs) (d :: ys)
        ≤ levRec xs ys + if c = d then 0 else 1 := by
          rw [levRec]; exact le_trans (min_le_right _ _) (min_le_right _ _)
      _ ≤ levRec xs ys + 1 := by split <;> omega
      _ ≤ n + 1 := by omega
  | insert d _ ih =>
    rename_i xs ys n _
    cases xs with
    | nil =>
      rw [levRec_nil_left] at ih ⊢
      simpa using Nat.succ_le_succ ih
    | cons x xs =>
      calc levRec (x :: xs) (d :: ys)
          ≤ levRec (x :: xs) ys + 1 := by
            rw [levRec]; exact le_trans (min_le_right _ _) (min_le_left _ _)
        _ ≤ n + 1 := by omega
  | delete c _ ih =>
    rename_i xs ys n _
    cases ys with
    | nil =>
      rw [levRec_nil_right] at ih ⊢
      simpa using Nat.succ_le_succ ih
    | cons y ys =>
      calc levRec (c :: xs) (y :: ys)
          ≤ levRec xs (y :: ys) + 1 := by
            rw [levRec]; exact min_le_left _ _
        _ ≤ n + 1 := by omega

theorem Edits.snoc_copy {xs ys : List Char} {n : Nat} (c : Char)
    (h : Edits xs ys n) : Edits (xs ++ [c]) (ys ++ [c]) n := by
  induction h with
  | nil => exact .copy c .nil
  | copy d _ ih => exact .copy d ih
  | subst d e _ ih => exact .subst d e ih
  | insert d _ ih => exact .insert d ih
  | delete d _ ih => exact .delete d ih

theorem Edits.snoc_subst {xs ys : List Char} {n : Nat} (c d : Char)
    (h : Edits xs ys n) : Edits (xs ++ [c]) (ys ++ [d]) (n + 1) := by
  induction h with
  | nil => exact .subst c d .nil
  | copy e _ ih => exact .copy e ih
  | subst e f _ ih => exact .subst e f ih
  | insert e _ ih => exact .insert e ih
  | delete e _ ih => exact .delete e ih

theorem Edits.snoc_insert {xs ys : List Char} {n : Nat} (d : Char)
    (h : Edits xs ys n) : Edits xs (ys ++ [d]) (n + 1) := by
  induction h with
  | nil => exact .insert d .nil
  | copy e _ ih => exact .copy e ih
  | subst e f _ ih => exact .subst e f ih
  | insert e _ ih => exact .insert e ih
  | delete e _ ih => exact .delete e ih

theorem Edits.snoc_delete {xs ys : List Char} {n : Nat} (c : Char)
    (h : Edits xs ys n) : Edits (xs ++ [c]) ys (n + 1) := by
  induction h with
  | nil => exact .delete c .nil
  | copy e _ ih => exact .copy e ih
  | subst e f _ ih => exact .subst e f ih
  | insert e _ ih => exact .insert e ih
  | delete e _ ih => exact .delete e ih

/-- Edit scripts are preserved by reversing both strings. -/
theorem Edits.rev {xs ys : List Char} {n : Nat} (h : Edits xs ys n) :
    Edits xs.reverse ys.reverse n := by
  induction h with
  | nil => exact .nil
  | copy c _ ih => rw [List.reverse_cons, List.reverse_cons]; exact ih.snoc_copy c
  | subst c d _ ih => rw [List.reverse_cons, List.reverse_cons]; exact ih.snoc_subst c d
  | insert d _ ih => rw [List.reverse_cons]; exact ih.snoc_insert d
  | delete c _ ih => rw [List.reverse_cons]; exact ih.snoc_delete c

theorem take_succ_reverse (l : List Char) (i : Nat) (h : i < l.length) :
    (l.take (i + 1)).reverse = l.get ⟨i, h⟩ :: (l.take i).reverse := by
  rw [List.take_succ]
  have : l[i]? = some (l.get ⟨i, h⟩) := by
    rw [List.getElem?_eq_getElem h]
    rfl
  rw [this]
  simp

/-- The source's matrix cell `(i, j)` is the `levRec` distance between
the reversed `i`-prefix of `a` and the reversed `j`-prefix of `b`. -/
theorem levMat_eq_levRec (a b : List Char) :
    ∀ i, ∀ j, i ≤ a.length → j ≤ b.length →
      levMat a b i j = levRec (a.take i).reverse (b.take j).reverse := by
  intro i
  induction i with
  | zero =>
    intro j _ hj
    rw [levMat_zero, List.take_zero, List.reverse_nil, levRec_nil_left]
    simp [List.length_take]
    omega
  | succ i ihi =>
    intro j
    induction j with
    | zero =>
      intro hi _
      rw [levMat_succ_zero, List.take_zero, List.reverse_nil, levRec_nil_right]
      simp [List.length_take]
      omega
    | succ j ihj =>
      intro hi hj
      have hi' : i < a.length := by omega
      have hj' : j < b.length := by omega
      rw [levMat_succ_succ,
        ihi (j + 1) (by omega) hj,
        ihj hi (by omega),
        ihi j (by omega) (by omega),
        take_succ_reverse a i hi', take_succ_reverse b j hj',
        show levRec (a.get ⟨i, hi'⟩ :: (a.take i).reverse)
              (b.get ⟨j, hj'⟩ :: (b.take j).reverse) =
            min (levRec (a.take i).reverse (b.get ⟨j, hj'⟩ :: (b.take j).reverse) + 1)
              (min (levRec (a.get ⟨i, hi'⟩ :: (a.take i).reverse) ((b.take j).reverse) + 1)
                (levRec (a.take i).reverse ((b.take j).reverse) +
                  if a.get ⟨i, hi'⟩ = b.get ⟨j, hj'⟩ then 0 else 1)) from by rw [levRec],
        List.get?_eq_get hi', List.get?_eq_get hj']
      simp only [Option.some.injEq]

/-- `levenshtein a b` equals `levRec` on the reversed character lists. -/
theorem levenshtein_eq_levRec (a b : String) :
    levenshtein a b = levRec a.data.reverse b.data.reverse := by
  unfold levenshtein
  rw [levMat_eq_levRec a.data b.data a.data.length b.data.length le_rfl le_rfl,
    List.take_length, List.take_length]

/-! ## Path and lookup helpers -/

theorem slash_append_eq_iff (k m : String) : "/" ++ k = "/" ++ m ↔ k = m := by
  constructor
  · intro h
    have hd := congrArg String.data h
    rw [String.data_append, String.data_append] at hd
    exact String.ext (List.cons_injective hd)
  · intro h
    rw [h]

theorem stripLeading_slash (k : String) : stripLeading ("/" ++ k) = k := rfl

theorem lookup_eq_none {M : List (String × String)} {k : String}
    (h : k ∉ M.map Prod.fst) : lookup M k = none := by
  unfold lookup
  rw [Option.map_eq_none', List.find?_eq_none]
  intro p hp hpk
  exact h (List.mem_map.mpr ⟨p, hp, by simpa using hpk⟩)

/-- Erase the timestamp field (`new Date().toISOString()`) interpolated
into a body, keeping every routing-relevant field. -/
def Body.stripTime : Body → Body
  | .homePage o u c _ => .homePage o u c ""
  | .jsonUrls u c _ => .jsonUrls u c ""
  | .jsonHealth s n _ => .jsonHealth s n ""
  | b => b

/-- Erase the timestamp field of a response's body. -/
def Response.stripTime (r : Response) : Response :=
  { r with body := r.body.stripTime }

instance : DecidableEq (Except String Response) := fun
  | .ok a, .ok b =>
    if h : a = b then isTrue (by rw [h])
    else isFalse (fun he => h (Except.ok.inj he))
  | .error a, .error b =>
    if h : a = b then isTrue (by rw [h])
    else isFalse (fun he => h (Except.error.inj he))
  | .ok _, .error _ => isFalse Except.noConfusion
  | .error _, .ok _ => isFalse Except.noConfusion

theorem truthy_str_iff (s : String) : truthy (.str s) = true ↔ s ≠ "" := by
  simp [truthy]

theorem getProp_of_lookup {M : List (String × String)} {k v : String}
    (h : lookup M k = some v) : getProp M k = .str v := by
  unfold getProp
  rw [h]

theorem getProp_of_miss {M : List (String × String)} {k : String}
    (hl : lookup M k = none) (hp : k ∉ protoProps) : getProp M k = .undefined := by
  unfold getProp
  rw [hl, if_neg hp]

theorem lookup_of_getProp_str {M : List (String × String)} {k v : String}
    (h : getProp M k = .str v) : lookup M k = some v := by
  unfold getProp at h
  cases hl : lookup M k with
  | some w =>
    rw [hl] at h
    cases h
    rfl
  | none =>
    rw [hl] at h
    by_cases hp : k ∈ protoProps <;> simp [hp] at h

theorem lookup_of_getProp_undefined {M : List (String × String)} {k : String}
    (h : getProp M k = .undefined) : lookup M k = none := by
  unfold getProp at h
  cases hl : lookup M k with
  | some w => rw [hl] at h; cases h
  | none => rfl

/-! ## Claims -/

/-- C1 counterexample: the mapping key `"health"` is shadowed by the
reserved `/health` route, so `handle("/health")` answers the health
check (status 200) instead of redirecting to the mapped destination,
refuting the claim for keys whose path coincides with a reserved
route. -/
theorem reserved_key_not_redirected :
    lookup [("health", "https://example.com")] "health" = some "https://example.com"
    ∧ fetch [("health", "https://example.com")] (fun _ _ => Except.ok ()) "t" "o"
        ("/" ++ "health")
      = .ok { status := 200, headers := [("Content-Type", "application/json")],
              body := .jsonHealth "ok" 1 "t" }
    ∧ fetch [("health", "https://example.com")] (fun _ _ => Except.ok ()) "t" "o"
        ("/" ++ "health")
      ≠ .ok (Response.redirect "https://example.com" 301) := by
  refine ⟨rfl, rfl, ?_⟩
  decide

/-- C1 (amended): for every mapping `M` and key `k` of `M` whose path
`"/" + k` is not one of the reserved routes and whose destination is a
nonempty string, `handle("/" + k)` returns a 301 permanent redirect
whose target equals `M[k]`, provided the analytics sink invocation does
not raise. -/
theorem redirect_hit (M : List (String × String))
    (sink : String → Nat → Except String Unit) (now origin k v : String)
    (hk : k ≠ "") (h1 : k ≠ "api/urls") (h2 : k ≠ "health")
    (hv : lookup M k = some v) (hvne : v ≠ "") (hs : sink v 1 = .ok ()) :
    fetch M sink now origin ("/" ++ k) = .ok (Response.redirect v 301) := by
  have e1 : ¬("/" ++ k = "/") :=
    fun h => hk ((slash_append_eq_iff k "").mp (h.trans rfl))
  have e2 : ¬("/" ++ k = "/api/urls") :=
    fun h => h1 ((slash_append_eq_iff k "api/urls").mp (h.trans rfl))
  have e3 : ¬("/" ++ k = "/health") :=
    fun h => h2 ((slash_append_eq_iff k "health").mp (h.trans rfl))
  simp only [fetch]
  rw [if_neg e1, if_neg e2, if_neg e3, stripLeading_slash, if_neg hk,
    getProp_of_lookup hv, if_pos ((truthy_str_iff v).mpr hvne)]
  simp only [hitResponse]
  rw [hs]

/-- C1 witness: a concrete hit redirects with a 301 to the mapped URL. -/
theorem redirect_hit_witness :
    fetch [("a", "https://x")] (fun _ _ => Except.ok ()) "t" "o" ("/" ++ "a")
      = .ok (Response.redirect "https://x" 301) :=
  redirect_hit [("a", "https://x")] (fun _ _ => Except.ok ()) "t" "o" "a" "https://x"
    (by decide) (by decide) (by decide) rfl (by decide) rfl

/-- C2 counterexample: the short code `"toString"` is not a key of the
empty mapping and satisfies every hypothesis of the original claim, yet
`URL_MAPPINGS["toString"]` is the truthy function inherited from
`Object.prototype`, so the handler takes the hit branch and throws a
`TypeError` instead of returning the asserted 404 suggestions page. -/
theorem proto_property_miss_throws :
    fetch [] (fun _ _ => Except.ok ()) "t" "o" ("/" ++ "toString")
      = .error "TypeError"
    ∧ fetch [] (fun _ _ => Except.ok ()) "t" "o" ("/" ++ "toString")
      ≠ .ok { status := 404,
              headers := [("Content-Type", "text/html"),
                          ("Cache-Control", "public, max-age=300")],
              body := .notFoundPage "toString" [] "o" } := by
  refine ⟨rfl, ?_⟩
  decide

/-- C2 (amended): on a miss of a non-reserved, nonempty short code that
is not a property name inherited from `Object.prototype`, the handler
returns 404 and the suggestion list embedded in the body is exactly the
keys at Levenshtein distance at most 2 from the code, truncated to the
first 5 in the mapping's insertion order, without duplicates. (On an
inherited property name the handler instead throws, see
the counterexample above.) -/
theorem miss_suggestions (M : List (String × String))
    (sink : String → Nat → Except String Unit) (now origin k : String)
    (hk : k ≠ "") (h1 : k ≠ "api/urls") (h2 : k ≠ "health")
    (hproto : k ∉ protoProps)
    (hmem : k ∉ M.map Prod.fst) (hnd : (M.map Prod.fst).Nodup) :
    fetch M sink now origin ("/" ++ k)
      = .ok { status := 404,
              headers := [("Content-Type", "text/html"),
                          ("Cache-Control", "public, max-age=300")],
              body := .notFoundPage k (suggest k (M.map Prod.fst)) origin }
    ∧ suggest k (M.map Prod.fst)
        = ((M.map Prod.fst).filter (fun key => levenshtein key k ≤ 2)).take 5
    ∧ (suggest k (M.map Prod.fst)).Nodup
    ∧ (suggest k (M.map Prod.fst)).length ≤ 5
    ∧ ∀ s ∈ suggest k (M.map Prod.fst),
        s ∈ M.map Prod.fst ∧ levenshtein s k ≤ 2 := by
  have e1 : ¬("/" ++ k = "/") :=
    fun h => hk ((slash_append_eq_iff k "").mp (h.trans rfl))
  have e2 : ¬("/" ++ k = "/api/urls") :=
    fun h => h1 ((slash_append_eq_iff k "api/urls").mp (h.trans rfl))
  have e3 : ¬("/" ++ k = "/health") :=
    fun h => h2 ((slash_append_eq_iff k "health").mp (h.trans rfl))
  refine ⟨?_, rfl, ?_, ?_, ?_⟩
  · simp only [fetch]
    rw [if_neg e1, if_neg e2, if_neg e3, stripLeading_slash, if_neg hk,
      getProp_of_miss (lookup_eq_none hmem) hproto]
    rfl
  · exact List.Nodup.sublist
      ((List.take_sublist 5 _).trans (List.filter_sublist _)) hnd
  · unfold suggest
    rw [List.length_take]
    exact min_le_left _ _
  · intro s hs
    have hmem2 := List.take_subset 5 _ hs
    rw [List.mem_filter] at hmem2
    exact ⟨hmem2.1, by simpa using hmem2.2⟩

/-- C2 witness: the spec's own example, `suggest("abc", ["ab","xyz","abcd"])
== ["ab","abcd"]`, realised through the handler. -/
theorem miss_suggestions_witness :
    fetch [("ab", "u1"), ("xyz", "u2"), ("abcd", "u3")] (fun _ _ => Except.ok ())
        "t" "o" ("/" ++ "abc")
      = .ok { status := 404,
              headers := [("Content-Type", "text/html"),
                          ("Cache-Control", "public, max-age=300")],
              body := .notFoundPage "abc" ["ab", "abcd"] "o" } :=
  ((miss_suggestions [("ab", "u1"), ("xyz", "u2"), ("abcd", "u3")]
    (fun _ _ => Except.ok ()) "t" "o" "abc"
    (by decide) (by decide) (by decide) (by decide) (by decide)
    (by decide)).1).trans (by decide)

/-- C3 counterexample: the call site of the analytics sink has no
`try`/`catch`, so a sink error aborts the handler instead of still
returning the 301 redirect. -/
theorem sink_error_not_swallowed :
    fetch [("a", "https://x")] (fun _ _ => Except.error "boom") "t" "o" ("/" ++ "a")
      = .error "boom"
    ∧ fetch [("a", "https://x")] (fun _ _ => Except.error "boom") "t" "o" ("/" ++ "a")
      ≠ .ok (Response.redirect "https://x" 301) := by
  refine ⟨rfl, ?_⟩
  decide

/-- C3 (amended): if the analytics sink invocation raises an error on a
redirect hit, the error propagates out of the handler: `handle` returns
that error and in particular not the 301 redirect response. -/
theorem sink_error_propagates (M : List (String × String))
    (sink : String → Nat → Except String Unit) (now origin k v e : String)
    (hk : k ≠ "") (h1 : k ≠ "api/urls") (h2 : k ≠ "health")
    (hv : lookup M k = some v) (hvne : v ≠ "") (hs : sink v 1 = .error e) :
    fetch M sink now origin ("/" ++ k) = .error e := by
  have e1 : ¬("/" ++ k = "/") :=
    fun h => hk ((slash_append_eq_iff k "").mp (h.trans rfl))
  have e2 : ¬("/" ++ k = "/api/urls") :=
    fun h => h1 ((slash_append_eq_iff k "api/urls").mp (h.trans rfl))
  have e3 : ¬("/" ++ k = "/health") :=
    fun h => h2 ((slash_append_eq_iff k "health").mp (h.trans rfl))
  simp only [fetch]
  rw [if_neg e1, if_neg e2, if_neg e3, stripLeading_slash, if_neg hk,
    getProp_of_lookup hv, if_pos ((truthy_str_iff v).mpr hvne)]
  simp only [hitResponse]
  rw [hs]

/-- C3 witness: a concrete failing sink aborts a concrete hit. -/
theorem sink_error_propagates_witness :
    fetch [("b", "https://y")] (fun _ _ => Except.error "down") "t" "o" ("/" ++ "b")
      = .error "down" :=
  sink_error_propagates [("b", "https://y")] (fun _ _ => Except.error "down")
    "t" "o" "b" "https://y" "down"
    (by decide) (by decide) (by decide) rfl (by decide) rfl

/-- C4: `levenshtein` computes the classic Levenshtein edit distance:
its value is the least cost of an edit script transforming `a` into `b`
by single-character insertions, deletions and substitutions of cost 1
(`Edits`). -/
theorem levenshtein_is_edit_distance (a b : String) :
    IsLeast {n | Edits a.data b.data n} (levenshtein a b) := by
  rw [levenshtein_eq_levRec]
  constructor
  · have h := (edits_levRec a.data.reverse b.data.reverse).rev
    simpa using h
  · intro n hn
    exact levRec_le_of_edits hn.rev

/-- C5: `handle("/api/urls")` returns 200 with JSON content type, CORS
`*` and a one-hour cache header, and a `{urls, count, buildTime}` body
whose `urls` is the mapping and whose `count` equals the number of
keys. -/
theorem api_urls_response (M : List (String × String))
    (sink : String → Nat → Except String Unit) (now origin : String) :
    fetch M sink now origin "/api/urls"
      = .ok { status := 200,
              headers := [("Content-Type", "application/json"),
                          ("Access-Control-Allow-Origin", "*"),
                          ("Cache-Control", "public, max-age=3600")],
              body := .jsonUrls M M.length now }
    ∧ M.length = (M.map Prod.fst).length :=
  ⟨rfl, (List.length_map M Prod.fst).symm⟩

/-- C6: `handle("/health")`, for every mapping including the empty one,
returns 200 with a JSON body whose status field is `"ok"` and whose
`urlCount` equals the number of keys. -/
theorem health_response (M : List (String × String))
    (sink : String → Nat → Except String Unit) (now origin : String) :
    fetch M sink now origin "/health"
      = .ok { status := 200,
              headers := [("Content-Type", "application/json")],
              body := .jsonHealth "ok" M.length now }
    ∧ M.length = (M.map Prod.fst).length :=
  ⟨rfl, (List.length_map M Prod.fst).symm⟩

/-- C7: on a non-reserved path whose stripped short code is empty, the
handler returns a bare 404 with the plain body `'Not Found'`. -/
theorem empty_shortcode_not_found (M : List (String × String))
    (sink : String → Nat → Except String Unit) (now origin p : String)
    (h1 : p ≠ "/") (h2 : p ≠ "/api/urls") (h3 : p ≠ "/health")
    (h4 : stripLeading p = "") :
    fetch M sink now origin p
      = .ok { status := 404, headers := [], body := .plain "Not Found" } := by
  simp only [fetch]
  rw [if_neg h1, if_neg h2, if_neg h3, h4, if_pos rfl]

/-- C7 witness: the empty path string. -/
theorem empty_shortcode_not_found_witness :
    fetch [] (fun _ _ => Except.ok ()) "t" "o" ""
      = .ok { status := 404, headers := [], body := .plain "Not Found" } :=
  empty_shortcode_not_found [] (fun _ _ => Except.ok ()) "t" "o" ""
    (by decide) (by decide) (by decide) rfl

/-- C8: for the empty query the Levenshtein distance to a candidate is
the candidate's length, so the filter of the suggestion computation
keeps exactly the candidates of length at most 2. -/
theorem empty_query_suggestions (c : String) (cs : List String) :
    levenshtein c "" = c.length
    ∧ cs.filter (fun key => levenshtein key "" ≤ 2)
        = cs.filter (fun key => key.length ≤ 2)
    ∧ suggest "" cs = (cs.filter (fun key => key.length ≤ 2)).take 5 := by
  have hlev : ∀ s : String, levenshtein s "" = s.length := by
    intro s
    show levMat s.data [] s.data.length 0 = s.data.length
    cases s.data.length <;> rfl
  have hfilter : cs.filter (fun key => levenshtein key "" ≤ 2)
      = cs.filter (fun key => key.length ≤ 2) :=
    List.filter_congr (fun x _ => by rw [hlev x])
  exact ⟨hlev c, hfilter, by unfold suggest; rw [hfilter]⟩

/-- C9: the handler's routing decision is deterministic: two
invocations with the same mapping, sink, origin and path produce the
same response up to the interpolated timestamps. -/
theorem routing_deterministic (M : List (String × String))
    (sink : String → Nat → Except String Unit) (origin p now1 now2 : String) :
    (fetch M sink now1 origin p).map Response.stripTime
      = (fetch M sink now2 origin p).map Response.stripTime := by
  simp only [fetch]
  split_ifs <;> rfl

/-- C10 counterexample: with the mapping `{"a": ""}`, the short code
`"a"` is a key but its destination is the empty string, which is falsy
in the hit test, so `handle("/a")` returns 404 rather than 301 — the
claimed "301 exactly when the stripped short-code is a key" fails. -/
theorem empty_value_key_not_redirected :
    ("a" ∈ [("a", "")].map Prod.fst)
    ∧ (fetch [("a", "")] (fun _ _ => Except.ok ()) "t" "o" "/a").map Response.status
        = .ok 404
    ∧ (fetch [("a", "")] (fun _ _ => Except.ok ()) "t" "o" "/a").map Response.status
        ≠ .ok 301 := by
  refine ⟨by decide, rfl, ?_⟩
  intro hcon
  have e1 : (fetch [("a", "")] (fun _ _ => Except.ok ()) "t" "o" "/a").map Response.status
      = Except.ok 404 := rfl
  exact absurd (Except.ok.inj (e1.symm.trans hcon)) (by decide)

/-- C10 (amended): every response the handler returns has status 200,
301 or 404; 200 exactly on the three reserved routes, 301 exactly when
the stripped short code is nonempty and maps to a nonempty destination,
and 404 in every remaining case. -/
theorem status_classification (M : List (String × String))
    (sink : String → Nat → Except String Unit) (now origin p : String) (r : Response)
    (h : fetch M sink now origin p = .ok r) :
    (r.status = 200 ∨ r.status = 301 ∨ r.status = 404)
    ∧ (r.status = 200 ↔ (p = "/" ∨ p = "/api/urls" ∨ p = "/health"))
    ∧ (r.status = 301 ↔ (¬(p = "/" ∨ p = "/api/urls" ∨ p = "/health")
        ∧ stripLeading p ≠ ""
        ∧ ∃ v, lookup M (stripLeading p) = some v ∧ v ≠ "")) := by
  simp only [fetch] at h
  by_cases h1 : p = "/"
  · rw [if_pos h1] at h
    obtain rfl := (Except.ok.inj h).symm
    exact ⟨Or.inl rfl, by simp [h1], by simp [h1]⟩
  rw [if_neg h1] at h
  by_cases h2 : p = "/api/urls"
  · rw [if_pos h2] at h
    obtain rfl := (Except.ok.inj h).symm
    exact ⟨Or.inl rfl, by simp [h2], by simp [h2]⟩
  rw [if_neg h2] at h
  by_cases h3 : p = "/health"
  · rw [if_pos h3] at h
    obtain rfl := (Except.ok.inj h).symm
    exact ⟨Or.inl rfl, by simp [h3], by simp [h3]⟩
  rw [if_neg h3] at h
  by_cases h4 : stripLeading p = ""
  · rw [if_pos h4] at h
    obtain rfl := (Except.ok.inj h).symm
    exact ⟨Or.inr (Or.inr rfl), by simp [h1, h2, h3], by simp [h4]⟩
  rw [if_neg h4] at h
  cases hg : getProp M (stripLeading p) with
  | str v =>
    rw [hg] at h
    have hlook := lookup_of_getProp_str hg
    by_cases hv : v = ""
    · subst hv
      rw [if_neg (by rw [show truthy (.str "") = false from rfl]; exact Bool.false_ne_true)] at h
      obtain rfl := (Except.ok.inj h).symm
      exact ⟨Or.inr (Or.inr rfl), by simp [h1, h2, h3], by simp [hlook]⟩
    · rw [if_pos ((truthy_str_iff v).mpr hv)] at h
      simp only [hitResponse] at h
      cases hs : sink v 1 with
      | ok u =>
        rw [hs] at h
        obtain rfl := (Except.ok.inj h).symm
        refine ⟨Or.inr (Or.inl rfl), by simp [Response.redirect, h1, h2, h3], ?_⟩
        simp [Response.redirect, h1, h2, h3, h4, hlook, hv]
      | error e =>
        rw [hs] at h
        exact Except.noConfusion h
  | proto =>
    rw [hg] at h
    rw [if_pos (show truthy .proto = true from rfl)] at h
    exact Except.noConfusion h
  | undefined =>
    rw [hg] at h
    rw [if_neg (by rw [show truthy .undefined = false from rfl]; exact Bool.false_ne_true)] at h
    obtain rfl := (Except.ok.inj h).symm
    exact ⟨Or.inr (Or.inr rfl), by simp [h1, h2, h3],
      by simp [lookup_of_getProp_undefined hg]⟩

/-- C10 witness: a concrete hit instantiates the classification with a
301 redirect. -/
theorem status_classification_witness :
    ((Response.redirect "https://x" 301).status = 200
      ∨ (Response.redirect "https://x" 301).status = 301
      ∨ (Response.redirect "https://x" 301).status = 404)
    ∧ ((Response.redirect "https://x" 301).status = 200
        ↔ (("/a" : String) = "/" ∨ ("/a" : String) = "/api/urls"
            ∨ ("/a" : String) = "/health"))
    ∧ ((Response.redirect "https://x" 301).status = 301
        ↔ (¬(("/a" : String) = "/" ∨ ("/a" : String) = "/api/urls"
              ∨ ("/a" : String) = "/health")
          ∧ stripLeading "/a" ≠ ""
          ∧ ∃ v, lookup [("a", "https://x")] (stripLeading "/a") = some v ∧ v ≠ "")) :=
  status_classification [("a", "https://x")] (fun _ _ => Except.ok ()) "t" "o" "/a"
    (Response.redirect "https://x" 301) rfl

end TinyUrl
